import Mathlib

/-!
Shallow embedding of the jewelry-inventory backend's product/ledger logic
(src/routes/productRoutes.js) and proofs about it.

Modelling conventions:
* JS strings are modelled through their character sequences (`String.data`);
  `jsSlice2`, `jsDrop2`, `jsToUpper` embed `s.slice(0,2)`, `s.slice(2)` and
  `s.toUpperCase()`.
* MongoDB's descending string sort on the `sku` field is byte-wise
  lexicographic; `lexLt` embeds that comparison.
* Quantities are `Int` (the routes do `Number(x)` arithmetic on integral
  quantities).
* The IST business day computed from the clock is an explicit `Nat` parameter
  `today`; `TransactionLog.date` stores that day index, so the
  `date: {$gte: startOfDay, $lte: endOfDay}` query becomes equality of day
  indices and `sort({date: -1})` becomes picking the row of maximal day.
* Mongoose documents live in lists; `save()` on a fetched document updates the
  first matching entry in place, `new ... save()` appends.
* A route answering 404 before writing anything is `Except.error`.
-/

namespace Inventory

/-- Character-list embedding of the JS string operation `s.slice(0, 2)`. -/
def jsSlice2 (s : String) : String := ⟨s.data.take 2⟩

/-- Character-list embedding of the JS string operation `s.slice(2)`. -/
def jsDrop2 (s : String) : String := ⟨s.data.drop 2⟩

/-- Character-list embedding of the JS string operation `s.toUpperCase()`
(ASCII case mapping, as used for names and SKU initials). -/
def jsToUpper (s : String) : String := ⟨s.data.map Char.toUpper⟩

/-- Byte-wise lexicographic strict order on character lists: the order MongoDB
uses to sort the string `sku` field. -/
def lexLt : List Char → List Char → Bool
  | [], [] => false
  | [], _ :: _ => true
  | _ :: _, [] => false
  | a :: as, b :: bs => if a < b then true else if b < a then false else lexLt as bs

/-- SKU comparison used by `.sort({ sku: -1 })`. -/
def skuLt (s t : String) : Bool := lexLt s.data t.data

/-- Accumulator loop of `parseInt` over leading decimal digits. -/
def leadDigits : List Char → Nat → Nat
  | [], acc => acc
  | c :: rest, acc =>
      if c.isDigit then leadDigits rest (acc * 10 + (c.toNat - 48)) else acc

/-- Embedding of the JS expression `parseInt(s) || 0`: parse the leading run of
decimal digits; a string not starting with a digit gives NaN, which `|| 0`
turns into 0 (as it does a parsed 0). Signs and whitespace never occur in the
generated SKU suffixes. -/
def parseIntOr0 (s : String) : Nat :=
  match s.data with
  | [] => 0
  | c :: _ => if c.isDigit then leadDigits s.data 0 else 0

/-- Embedding of `str.padStart(2, "0")`. -/
def pad2 (s : String) : String :=
  if 2 ≤ s.data.length then s else ⟨List.replicate (2 - s.data.length) '0' ++ s.data⟩

/-- Case-insensitive prefix test: embedding of `new RegExp("^" + initials, "i")`
matching a `sku` (initials never contain regex metacharacters: they are the
uppercased first two characters of a product name). -/
def matchesSkuCI (initials sku : String) : Bool :=
  (sku.data.take initials.data.length).map Char.toUpper == initials.data.map Char.toUpper

/-- Product document (the fields the ledger routes read or write). -/
structure Product where
  id : Nat
  sku : String
  name : String
  quantity : Int
  lowQuantity : Int
  openingQty : Int
  addedQty : Int
  soldQty : Int
  closingQty : Int
  isActive : Bool
  deriving DecidableEq, Repr

/-- TransactionLog document; `date` is the IST business-day index. -/
structure TxnLog where
  productId : Nat
  productName : String
  sku : String
  date : Nat
  openingQty : Int
  addedQty : Int
  soldQty : Int
  closingQty : Int
  remarks : String
  deriving DecidableEq, Repr

/-- Database state: the two collections, in insertion order. -/
structure DB where
  products : List Product
  logs : List TxnLog
  deriving DecidableEq, Repr

/-- Embedding of `Product.findOne({sku: /^initials/i}).sort({sku: -1})`: the
matching product with the lexicographically greatest `sku` (first such entry
on ties, whose `sku` is then determined anyway). -/
def maxBySku (ps : List Product) : Option Product :=
  ps.foldl
    (fun acc p =>
      match acc with
      | none => some p
      | some q => if skuLt q.sku p.sku then some p else some q)
    none

/-- Embedding of `generateSKU(name)` from productRoutes.js. -/
def generateSKU (ps : List Product) (name : String) : String :=
  let initials := jsToUpper (jsSlice2 name)
  let lastProduct := maxBySku (ps.filter (fun p => matchesSkuCI initials p.sku))
  let nextNumber : Nat :=
    match lastProduct with
    | some p => if p.sku.data.isEmpty then 1 else parseIntOr0 (jsDrop2 p.sku) + 1
    | none => 1
  initials ++ pad2 (Nat.repr nextNumber)

/-- Embedding of `Product.findById(id)`. -/
def findProduct : List Product → Nat → Option Product
  | [], _ => none
  | p :: ps, pid => if p.id == pid then some p else findProduct ps pid

/-- Embedding of `TransactionLog.findOne({productId, date: {$gte: startOfDay,
$lte: endOfDay}})`: the (first) row of this product for the given business
day. -/
def findTodayTxn : List TxnLog → Nat → Nat → Option TxnLog
  | [], _, _ => none
  | t :: ts, pid, day =>
      if t.productId == pid && t.date == day then some t else findTodayTxn ts pid day

/-- Embedding of `TransactionLog.findOne({productId}).sort({date: -1})`: the
row of this product with the greatest business day (first such on ties). -/
def lastTxn (logs : List TxnLog) (pid : Nat) : Option TxnLog :=
  logs.foldl
    (fun acc t =>
      if t.productId == pid then
        match acc with
        | none => some t
        | some a => if a.date < t.date then some t else some a
      else acc)
    none

/-- Mongoose `document.save()` on a fetched product: update the first entry
with this id in place. -/
def updateFirstProduct : List Product → Nat → Product → List Product
  | [], _, _ => []
  | p :: ps, pid, p2 =>
      if p.id == pid then p2 :: ps else p :: updateFirstProduct ps pid p2

/-- Mongoose `document.save()` on a fetched transaction-log row: update the
first entry of this product and day in place. -/
def updateFirstTxn : List TxnLog → Nat → Nat → TxnLog → List TxnLog
  | [], _, _, _ => []
  | t :: ts, pid, day, t2 =>
      if t.productId == pid && t.date == day then t2 :: ts
      else t :: updateFirstTxn ts pid day t2

/-- Embedding of `router.put("/update/:id")`: the applyMovement operation. -/
def applyMovement (db : DB) (pid : Nat) (addQty sellQty : Int) (today : Nat) :
    Except String DB :=
  match findProduct db.products pid with
  | none => .error "Product not found"
  | some product =>
    match findTodayTxn db.logs pid today with
    | none =>
      let openingQty : Int :=
        match lastTxn db.logs pid with
        | some lastT => lastT.closingQty
        | none => product.quantity
      let todayTxn : TxnLog :=
        { productId := pid
          productName := product.name
          sku := product.sku
          date := today
          openingQty := openingQty
          addedQty := addQty
          soldQty := sellQty
          closingQty := openingQty + addQty - sellQty
          remarks := "New day transaction" }
      let product2 : Product :=
        { product with
          openingQty := todayTxn.openingQty
          addedQty := todayTxn.addedQty
          soldQty := todayTxn.soldQty
          closingQty := todayTxn.closingQty
          quantity := todayTxn.closingQty }
      .ok { products := updateFirstProduct db.products pid product2
            logs := db.logs ++ [todayTxn] }
    | some t =>
      let t2 : TxnLog :=
        { t with
          addedQty := t.addedQty + addQty
          soldQty := t.soldQty + sellQty
          closingQty := t.openingQty + (t.addedQty + addQty) - (t.soldQty + sellQty) }
      let product2 : Product :=
        { product with
          openingQty := t2.openingQty
          addedQty := t2.addedQty
          soldQty := t2.soldQty
          closingQty := t2.closingQty
          quantity := t2.closingQty }
      .ok { products := updateFirstProduct db.products pid product2
            logs := updateFirstTxn db.logs pid today t2 }

/-- Embedding of `router.post("/add")`: create a product plus its initial
transaction-log row. `newId` stands for the fresh Mongo `_id`. -/
def createProduct (db : DB) (newId : Nat) (name : String)
    (quantity lowQuantity : Int) (today : Nat) : DB :=
  let sku := generateSKU db.products name
  let product : Product :=
    { id := newId
      sku := sku
      name := jsToUpper name
      quantity := quantity
      lowQuantity := lowQuantity
      openingQty := quantity
      addedQty := 0
      soldQty := 0
      closingQty := quantity
      isActive := true }
  let initLog : TxnLog :=
    { productId := newId
      productName := product.name
      sku := product.sku
      date := today
      openingQty := quantity
      addedQty := 0
      soldQty := 0
      closingQty := quantity
      remarks := "Initial stock entry" }
  { products := db.products ++ [product], logs := db.logs ++ [initLog] }

/-- Embedding of `router.put("/soft-delete/:id")`. -/
def softDelete (db : DB) (pid : Nat) : Except String DB :=
  match findProduct db.products pid with
  | none => .error "Product not found"
  | some product =>
      .ok { db with
            products := updateFirstProduct db.products pid { product with isActive := false } }

/-- Embedding of `router.put("/restore/:id")`. -/
def restore (db : DB) (pid : Nat) : Except String DB :=
  match findProduct db.products pid with
  | none => .error "Product not found"
  | some product =>
      .ok { db with
            products := updateFirstProduct db.products pid { product with isActive := true } }

/-- Embedding of `router.delete("/delete/:id")`: `findByIdAndDelete`, then
`TransactionLog.deleteMany({productId})` (only reached when the product
existed). -/
def hardDelete (db : DB) (pid : Nat) : Except String DB :=
  match findProduct db.products pid with
  | none => .error "Product not found"
  | some _ =>
      .ok { products := db.products.filter (fun p => p.id != pid)
            logs := db.logs.filter (fun t => t.productId != pid) }

/-- A sequence of update requests (addQty, sellQty pairs) applied on one
business day. -/
def applyMovements (db : DB) (pid : Nat) (ms : List (Int × Int)) (today : Nat) :
    Except String DB :=
  ms.foldlM (fun d m => applyMovement d pid m.1 m.2 today) db

/-- Extract the state of a successful operation (default: empty store). -/
def getOk (e : Except String DB) : DB := e.toOption.getD ⟨[], []⟩

/-- The empty store. -/
def dbEmpty : DB := ⟨[], []⟩

/-- Example run, following the spec's worked example: product "Necklace"
created with quantity 10 on day 0. -/
def dbNecklace : DB := createProduct dbEmpty 1 "Necklace" 10 0 0

/-- Example run: then 5 added the same day (merges into the initial row). -/
def dbNecklace1 : DB := getOk (applyMovement dbNecklace 1 5 0 0)

/-- Example run: then 3 more added on day 1 (a new-day row). -/
def dbNecklaceDay2 : DB := getOk (applyMovement dbNecklace1 1 3 0 1)

/-- Example run: a zero movement on day 1 after the day-0 activity. -/
def dbNecklaceZero : DB := getOk (applyMovement dbNecklace1 1 0 0 1)

/-- A store holding one product whose SKU is "AB99". -/
def dbAB99 : DB :=
  ⟨[{ id := 7, sku := "AB99", name := "AB RING", quantity := 1, lowQuantity := 0,
      openingQty := 1, addedQty := 0, soldQty := 0, closingQty := 1, isActive := true }], []⟩

/-- The store dbAB99 after saving a second product carrying the SKU that
generateSKU produced for the name "ABC". -/
def dbAB99next : DB :=
  ⟨dbAB99.products ++
    [{ id := 8, sku := generateSKU dbAB99.products "ABC", name := "ABC", quantity := 1,
       lowQuantity := 0, openingQty := 1, addedQty := 0, soldQty := 0, closingQty := 1,
       isActive := true }], []⟩

/-- Equality of products on every stored field except isActive. -/
def eqExceptActive (p q : Product) : Prop :=
  p.id = q.id ∧ p.sku = q.sku ∧ p.name = q.name ∧ p.quantity = q.quantity ∧
  p.lowQuantity = q.lowQuantity ∧ p.openingQty = q.openingQty ∧
  p.addedQty = q.addedQty ∧ p.soldQty = q.soldQty ∧ p.closingQty = q.closingQty

/-- Lifetime sum of the added quantities over all log rows of a product. -/
def totalAdded (logs : List TxnLog) (pid : Nat) : Int :=
  (logs.filter (fun t => t.productId == pid)).foldl (fun acc t => acc + t.addedQty) 0

/-- The SKU with the given initials and zero-padded numeric suffix: the shape
generateSKU produces. -/
def skuOf (initials : String) (n : Nat) : String := initials ++ pad2 (Nat.repr n)

/-- The numeric suffix the generator reads off a SKU. -/
def suffNum (p : Product) : Nat := parseIntOr0 (jsDrop2 p.sku)

/-- Every product in the store matching the initials carries a padded SKU of
the generator's shape with numeric suffix at most b. -/
def skusBelow (initials : String) (b : Nat) (ps : List Product) : Prop :=
  ∀ p ∈ ps, matchesSkuCI initials p.sku = true → ∃ n ≤ b, p.sku = skuOf initials n

/-- A product whose SKU is its own parsed suffix rendered back in the
generator's shape, with the suffix at most b. -/
def skuShaped (initials : String) (b : Nat) (p : Product) : Prop :=
  p.sku = skuOf initials (suffNum p) ∧ suffNum p ≤ b

/-- A store holding one product whose SKU is "AB07". -/
def dbAB07 : DB :=
  ⟨[{ id := 3, sku := "AB07", name := "AB RING", quantity := 1, lowQuantity := 0,
      openingQty := 1, addedQty := 0, soldQty := 0, closingQty := 1, isActive := true }], []⟩

/-- A second product saved with the SKU the generator produced on dbAB07. -/
def pAB08 : Product :=
  { id := 4, sku := generateSKU dbAB07.products "ABC", name := "ABC", quantity := 1,
    lowQuantity := 0, openingQty := 1, addedQty := 0, soldQty := 0, closingQty := 1,
    isActive := true }

/-- Example run: a zero movement on the creation day (same-day merge path). -/
def dbNecklaceZeroSame : DB := getOk (applyMovement dbNecklace 1 0 0 0)

/-- Example run: a same-day sequence of two movements. -/
def dbNecklaceSeq : DB := getOk (applyMovements dbNecklace 1 [(5, 0), (2, 1)] 0)

/-- Example run: a negative movement (addQty below zero). -/
def dbNecklaceNeg : DB := getOk (applyMovement dbNecklace 1 (-5) 0 0)

/-- Example run: the Necklace product soft-deleted. -/
def dbNecklaceArchived : DB := getOk (softDelete dbNecklace 1)

/-- Example run: the Necklace product soft-deleted, then restored. -/
def dbNecklaceRestored : DB := getOk (restore dbNecklaceArchived 1)

/-! ### Lemmas about the document-store primitives -/

/-- A product returned by findProduct carries the queried id. -/
theorem findProduct_id {ps : List Product} {pid : Nat} {p : Product}
    (h : findProduct ps pid = some p) : (p.id == pid) = true := by
  induction ps with
  | nil => cases h
  | cons x xs ih =>
      by_cases hx : (x.id == pid) = true
      · simp only [findProduct, if_pos hx] at h
        cases h
        exact hx
      · simp only [findProduct, if_neg hx] at h
        exact ih h

/-- A row returned by findTodayTxn matches the queried product and day. -/
theorem findTodayTxn_matches {logs : List TxnLog} {pid day : Nat} {t : TxnLog}
    (h : findTodayTxn logs pid day = some t) :
    (t.productId == pid && t.date == day) = true := by
  induction logs with
  | nil => cases h
  | cons x xs ih =>
      by_cases hx : (x.productId == pid && x.date == day) = true
      · simp only [findTodayTxn, if_pos hx] at h
        cases h
        exact hx
      · simp only [findTodayTxn, if_neg hx] at h
        exact ih h

/-- Appending a matching row to a store without one makes it the found row. -/
theorem findTodayTxn_append_snoc {logs : List TxnLog} {pid day : Nat} (t : TxnLog)
    (hnone : findTodayTxn logs pid day = none)
    (ht : (t.productId == pid && t.date == day) = true) :
    findTodayTxn (logs ++ [t]) pid day = some t := by
  induction logs with
  | nil => simp [findTodayTxn, ht]
  | cons x xs ih =>
      by_cases hx : (x.productId == pid && x.date == day) = true
      · simp only [findTodayTxn, if_pos hx] at hnone
        cases hnone
      · simp only [findTodayTxn, if_neg hx] at hnone
        simp only [List.cons_append, findTodayTxn, if_neg hx]
        exact ih hnone

/-- Updating the found row in place makes the update the found row. -/
theorem findTodayTxn_updateFirstTxn {logs : List TxnLog} {pid day : Nat} {t : TxnLog}
    (t2 : TxnLog) (hfind : findTodayTxn logs pid day = some t)
    (h2 : (t2.productId == pid && t2.date == day) = true) :
    findTodayTxn (updateFirstTxn logs pid day t2) pid day = some t2 := by
  induction logs with
  | nil => cases hfind
  | cons x xs ih =>
      by_cases hx : (x.productId == pid && x.date == day) = true
      · have hx' : x.productId = pid ∧ x.date = day := by simpa using hx
        simp [updateFirstTxn, hx'.1, hx'.2, findTodayTxn, h2]
      · simp only [findTodayTxn, if_neg hx] at hfind
        simp only [updateFirstTxn, if_neg hx, findTodayTxn, if_neg hx]
        exact ih hfind

/-- Updating the found product in place makes the update the found product. -/
theorem findProduct_updateFirstProduct {ps : List Product} {pid : Nat} {p : Product}
    (p2 : Product) (hfind : findProduct ps pid = some p)
    (h2 : (p2.id == pid) = true) :
    findProduct (updateFirstProduct ps pid p2) pid = some p2 := by
  induction ps with
  | nil => cases hfind
  | cons x xs ih =>
      by_cases hx : (x.id == pid) = true
      · have hx' : x.id = pid := by simpa using hx
        simp [updateFirstProduct, hx', findProduct, h2]
      · simp only [findProduct, if_neg hx] at hfind
        simp only [updateFirstProduct, if_neg hx, findProduct, if_neg hx]
        exact ih hfind

/-! ### Claim C1 -/

/-- Claim C1: after every successful applyMovement, the persisted
transaction-log row for the day satisfies
closingQty = openingQty + addedQty - soldQty, the product snapshot satisfies
the same balance equation, and the product's quantity equals its
closingQty. -/
theorem applyMovement_reconciles (db : DB) (pid : Nat) (a s : Int) (day : Nat)
    (db' : DB) (h : applyMovement db pid a s day = .ok db') :
    ∃ t p, findTodayTxn db'.logs pid day = some t ∧
      findProduct db'.products pid = some p ∧
      t.closingQty = t.openingQty + t.addedQty - t.soldQty ∧
      p.closingQty = p.openingQty + p.addedQty - p.soldQty ∧
      p.quantity = p.closingQty := by
  cases hfp : findProduct db.products pid with
  | none =>
      simp only [applyMovement, hfp] at h
      exact Except.noConfusion h
  | some product =>
    cases hft : findTodayTxn db.logs pid day with
    | none =>
      simp only [applyMovement, hfp, hft, Except.ok.injEq] at h
      subst h
      exact ⟨_, _, findTodayTxn_append_snoc _ hft (by simp),
        findProduct_updateFirstProduct _ hfp (by simpa using findProduct_id hfp),
        rfl, rfl, rfl⟩
    | some t =>
      simp only [applyMovement, hfp, hft, Except.ok.injEq] at h
      subst h
      exact ⟨_, _, findTodayTxn_updateFirstTxn _ hft (by simpa using findTodayTxn_matches hft),
        findProduct_updateFirstProduct _ hfp (by simpa using findProduct_id hfp),
        rfl, rfl, rfl⟩

/-- Witness for C1 at a concrete input: adding 5 to the freshly created
Necklace product on day 0. -/
theorem applyMovement_reconciles_witness :
    ∃ t p, findTodayTxn dbNecklace1.logs 1 0 = some t ∧
      findProduct dbNecklace1.products 1 = some p ∧
      t.closingQty = t.openingQty + t.addedQty - t.soldQty ∧
      p.closingQty = p.openingQty + p.addedQty - p.soldQty ∧
      p.quantity = p.closingQty :=
  applyMovement_reconciles dbNecklace 1 5 0 0 dbNecklace1 rfl

/-! ### Claim C9 -/

/-- Claim C9: every mutating operation invoked with a product id not in the
store fails with the "Product not found" error; each route returns before
performing any write, so no product or transaction-log state changes (an
error outcome carries no successor state in this embedding). -/
theorem notFound_no_change (db : DB) (pid : Nat) (a s : Int) (day : Nat)
    (h : findProduct db.products pid = none) :
    applyMovement db pid a s day = .error "Product not found" ∧
    softDelete db pid = .error "Product not found" ∧
    restore db pid = .error "Product not found" ∧
    hardDelete db pid = .error "Product not found" := by
  refine ⟨?_, ?_, ?_, ?_⟩ <;> simp [applyMovement, softDelete, restore, hardDelete, h]

/-- Witness for C9: id 99 is absent from the one-product store. -/
theorem notFound_no_change_witness :
    applyMovement dbNecklace 99 4 2 0 = .error "Product not found" ∧
    softDelete dbNecklace 99 = .error "Product not found" ∧
    restore dbNecklace 99 = .error "Product not found" ∧
    hardDelete dbNecklace 99 = .error "Product not found" :=
  notFound_no_change dbNecklace 99 4 2 0 rfl

/-! ### Claim C2 -/

/-- Claim C2: when applyMovement runs on a business day with no existing row
for the product, the new row opens at the closing quantity of the product's
most recent prior row, or at the product's current quantity if no prior row
exists, and closes at opening + addQty - sellQty. -/
theorem applyMovement_newDay_opening (db : DB) (pid : Nat) (a s : Int) (day : Nat)
    (p : Product) (db' : DB)
    (hp : findProduct db.products pid = some p)
    (hnone : findTodayTxn db.logs pid day = none)
    (h : applyMovement db pid a s day = .ok db') :
    ∃ t, findTodayTxn db'.logs pid day = some t ∧
      t.openingQty = (match lastTxn db.logs pid with
        | some l => l.closingQty
        | none => p.quantity) ∧
      t.addedQty = a ∧ t.soldQty = s ∧ t.closingQty = t.openingQty + a - s := by
  simp only [applyMovement, hp, hnone, Except.ok.injEq] at h
  subst h
  exact ⟨_, findTodayTxn_append_snoc _ hnone (by simp), rfl, rfl, rfl, rfl⟩

/-- Witness for C2: day 1 for the Necklace product opens at day 0's closing
quantity 15. -/
theorem applyMovement_newDay_opening_witness :
    ∃ t, findTodayTxn dbNecklaceDay2.logs 1 1 = some t ∧
      t.openingQty = (match lastTxn dbNecklace1.logs 1 with
        | some l => l.closingQty
        | none => (15 : Int)) ∧
      t.addedQty = 3 ∧ t.soldQty = 0 ∧ t.closingQty = t.openingQty + 3 - 0 :=
  applyMovement_newDay_opening dbNecklace1 1 3 0 1
    { id := 1, sku := "NE01", name := "NECKLACE", quantity := 15, lowQuantity := 0,
      openingQty := 10, addedQty := 5, soldQty := 0, closingQty := 15, isActive := true }
    dbNecklaceDay2 (by decide) (by decide) rfl

/-! ### Claim C3 -/

/-- A single applyMovement on a day that already has a row merges into that
row: added and sold grow by the request, opening is untouched, closing is
recomputed. Shared step lemma. -/
theorem applyMovement_merge {db : DB} {pid : Nat} {a s : Int} {day : Nat}
    {t : TxnLog} {db' : DB}
    (hft : findTodayTxn db.logs pid day = some t)
    (h : applyMovement db pid a s day = .ok db') :
    findTodayTxn db'.logs pid day = some
      { t with
        addedQty := t.addedQty + a
        soldQty := t.soldQty + s
        closingQty := t.openingQty + (t.addedQty + a) - (t.soldQty + s) } := by
  cases hfp : findProduct db.products pid with
  | none =>
      simp only [applyMovement, hfp] at h
      exact Except.noConfusion h
  | some product =>
      simp only [applyMovement, hfp, hft, Except.ok.injEq] at h
      subst h
      exact findTodayTxn_updateFirstTxn _ hft (by simpa using findTodayTxn_matches hft)

/-- Claim C3: a sequence of applyMovement calls on one product within a single
business day keeps the day row's opening unchanged and accumulates added and
sold, so the final closing equals opening + the sum of additions - the sum of
sales over the day. -/
theorem applyMovements_sameDay_sum (db : DB) (pid : Nat) (ms : List (Int × Int))
    (day : Nat) (t : TxnLog) (db' : DB)
    (hft : findTodayTxn db.logs pid day = some t)
    (hinv : t.closingQty = t.openingQty + t.addedQty - t.soldQty)
    (h : applyMovements db pid ms day = .ok db') :
    ∃ t', findTodayTxn db'.logs pid day = some t' ∧
      t'.openingQty = t.openingQty ∧
      t'.addedQty = t.addedQty + (ms.map Prod.fst).sum ∧
      t'.soldQty = t.soldQty + (ms.map Prod.snd).sum ∧
      t'.closingQty = t'.openingQty + t'.addedQty - t'.soldQty := by
  induction ms generalizing db t with
  | nil =>
      simp only [applyMovements, List.foldlM_nil, pure, Except.pure, Except.ok.injEq] at h
      subst h
      exact ⟨t, hft, rfl, by simp, by simp, hinv⟩
  | cons m ms ih =>
      simp only [applyMovements, List.foldlM_cons] at h
      cases hstep : applyMovement db pid m.1 m.2 day with
      | error e =>
          rw [hstep] at h
          simp only [Bind.bind, Except.bind] at h
          exact Except.noConfusion h
      | ok db1 =>
          rw [hstep] at h
          have h1 : applyMovements db1 pid ms day = .ok db' := h
          have hft1 := applyMovement_merge hft hstep
          obtain ⟨t', ha, hb, hc, hd, he⟩ := ih db1 _ hft1 rfl h1
          refine ⟨t', ha, ?_, ?_, ?_, he⟩
          · simpa using hb
          · simp only [List.map_cons, List.sum_cons]
            simp at hc
            omega
          · simp only [List.map_cons, List.sum_cons]
            simp at hd
            omega

/-- Witness for C3: two same-day movements on the fresh Necklace product. -/
theorem applyMovements_sameDay_sum_witness :
    ∃ t', findTodayTxn dbNecklaceSeq.logs 1 0 = some t' ∧
      t'.openingQty = 10 ∧
      t'.addedQty = 0 + ([((5 : Int), (0 : Int)), (2, 1)].map Prod.fst).sum ∧
      t'.soldQty = 0 + ([((5 : Int), (0 : Int)), (2, 1)].map Prod.snd).sum ∧
      t'.closingQty = t'.openingQty + t'.addedQty - t'.soldQty := by
  have h := applyMovements_sameDay_sum dbNecklace 1 [(5, 0), (2, 1)] 0
    { productId := 1, productName := "NECKLACE", sku := "NE01", date := 0,
      openingQty := 10, addedQty := 0, soldQty := 0, closingQty := 10,
      remarks := "Initial stock entry" }
    dbNecklaceSeq (by decide) (by decide) rfl
  simpa using h

/-! ### Claim C4 -/

/-- Counterexample to C4: negative inputs are not clamped to zero. A movement
with addQty = -5 yields a different state than one with addQty = 0, and the
day row's addedQty actually becomes -5. -/
theorem applyMovement_negative_cex :
    (applyMovement dbNecklace 1 (-5) 0 0).toOption ≠
      (applyMovement dbNecklace 1 0 0 0).toOption ∧
    dbNecklaceNeg.logs.map TxnLog.addedQty = [-5] := by decide

/-- Amended C4: applyMovement uses addQty and sellQty exactly as given, with
no clamping: the day row's added and sold quantities grow by the raw, possibly
negative, inputs. -/
theorem applyMovement_raw_inputs (db : DB) (pid : Nat) (a s : Int) (day : Nat)
    (db' : DB) (h : applyMovement db pid a s day = .ok db') :
    ∃ t', findTodayTxn db'.logs pid day = some t' ∧
      t'.addedQty = (match findTodayTxn db.logs pid day with
        | some t => t.addedQty
        | none => 0) + a ∧
      t'.soldQty = (match findTodayTxn db.logs pid day with
        | some t => t.soldQty
        | none => 0) + s := by
  cases hfp : findProduct db.products pid with
  | none =>
      simp only [applyMovement, hfp] at h
      exact Except.noConfusion h
  | some product =>
    cases hft : findTodayTxn db.logs pid day with
    | none =>
        simp only [applyMovement, hfp, hft, Except.ok.injEq] at h
        subst h
        refine ⟨_, findTodayTxn_append_snoc _ hft (by simp), ?_, ?_⟩ <;> simp [hft]
    | some t =>
        simp only [applyMovement, hfp, hft, Except.ok.injEq] at h
        subst h
        refine ⟨_, findTodayTxn_updateFirstTxn _ hft
          (by simpa using findTodayTxn_matches hft), ?_, ?_⟩ <;> simp [hft]

/-- Witness for the amended C4 at a negative input. -/
theorem applyMovement_raw_inputs_witness :
    ∃ t', findTodayTxn dbNecklaceNeg.logs 1 0 = some t' ∧
      t'.addedQty = (match findTodayTxn dbNecklace.logs 1 0 with
        | some t => t.addedQty
        | none => 0) + (-5) ∧
      t'.soldQty = (match findTodayTxn dbNecklace.logs 1 0 with
        | some t => t.soldQty
        | none => 0) + 0 :=
  applyMovement_raw_inputs dbNecklace 1 (-5) 0 0 dbNecklaceNeg rfl

/-! ### Claim C6 -/

/-- Counterexample to C6: after movements on two days (add 5 on day 0, add 3
on day 1) the snapshot's addedQty is day 1's figure 3, not the lifetime total
8, so the snapshot fields are not lifetime cumulative. -/
theorem snapshot_not_lifetime_cex :
    (findProduct dbNecklaceDay2.products 1).map Product.addedQty ≠
      some (totalAdded dbNecklaceDay2.logs 1) ∧
    (findProduct dbNecklaceDay2.products 1).map Product.addedQty = some 3 ∧
    totalAdded dbNecklaceDay2.logs 1 = 8 := by decide

/-- Amended C6: the product snapshot's opening/added/sold/closing fields hold
the current day's transaction-row values (daily figures, not lifetime
cumulative ones): after every successful applyMovement they equal the fields
of the day's row, and quantity equals that row's closing. -/
theorem snapshot_daily_fields (db : DB) (pid : Nat) (a s : Int) (day : Nat)
    (db' : DB) (h : applyMovement db pid a s day = .ok db') :
    ∃ t p, findTodayTxn db'.logs pid day = some t ∧
      findProduct db'.products pid = some p ∧
      p.openingQty = t.openingQty ∧ p.addedQty = t.addedQty ∧
      p.soldQty = t.soldQty ∧ p.closingQty = t.closingQty ∧
      p.quantity = t.closingQty := by
  cases hfp : findProduct db.products pid with
  | none =>
      simp only [applyMovement, hfp] at h
      exact Except.noConfusion h
  | some product =>
    cases hft : findTodayTxn db.logs pid day with
    | none =>
      simp only [applyMovement, hfp, hft, Except.ok.injEq] at h
      subst h
      exact ⟨_, _, findTodayTxn_append_snoc _ hft (by simp),
        findProduct_updateFirstProduct _ hfp (by simpa using findProduct_id hfp),
        rfl, rfl, rfl, rfl, rfl⟩
    | some t =>
      simp only [applyMovement, hfp, hft, Except.ok.injEq] at h
      subst h
      exact ⟨_, _, findTodayTxn_updateFirstTxn _ hft
          (by simpa using findTodayTxn_matches hft),
        findProduct_updateFirstProduct _ hfp (by simpa using findProduct_id hfp),
        rfl, rfl, rfl, rfl, rfl⟩

/-- Witness for the amended C6 on the two-day example run. -/
theorem snapshot_daily_fields_witness :
    ∃ t p, findTodayTxn dbNecklaceDay2.logs 1 1 = some t ∧
      findProduct dbNecklaceDay2.products 1 = some p ∧
      p.openingQty = t.openingQty ∧ p.addedQty = t.addedQty ∧
      p.soldQty = t.soldQty ∧ p.closingQty = t.closingQty ∧
      p.quantity = t.closingQty :=
  snapshot_daily_fields dbNecklace1 1 3 0 1 dbNecklaceDay2 rfl

/-! ### Claim C7 -/

/-- Counterexample to C7: create with quantity 10 stores addedQty = 0, not
addedQty = quantity as the claim's chain opening = added = closing = quantity
asserts. -/
theorem create_addedQty_cex :
    (findProduct dbNecklace.products 1).map Product.addedQty ≠ some 10 ∧
    (findProduct dbNecklace.products 1).map Product.addedQty = some 0 := by decide

/-- Amended C7: create normalizes the name to uppercase, generates the SKU,
sets openingQty = closingQty = quantity, addedQty = soldQty = 0,
isActive = true, and writes exactly one initial TransactionLog row, with
remarks "Initial stock entry", opening = closing = quantity and
added = sold = 0. -/
theorem createProduct_spec (db : DB) (newId : Nat) (name : String)
    (q lq : Int) (day : Nat) :
    ∃ p t, (createProduct db newId name q lq day).products = db.products ++ [p] ∧
      (createProduct db newId name q lq day).logs = db.logs ++ [t] ∧
      p.id = newId ∧ p.name = jsToUpper name ∧
      p.sku = generateSKU db.products name ∧ p.quantity = q ∧
      p.openingQty = q ∧ p.addedQty = 0 ∧ p.soldQty = 0 ∧ p.closingQty = q ∧
      p.isActive = true ∧
      t.productId = newId ∧ t.openingQty = q ∧ t.addedQty = 0 ∧
      t.soldQty = 0 ∧ t.closingQty = q ∧ t.remarks = "Initial stock entry" :=
  ⟨_, _, rfl, rfl, rfl, rfl, rfl, rfl, rfl, rfl, rfl, rfl, rfl, rfl, rfl, rfl, rfl, rfl, rfl⟩

/-! ### Claim C8 -/

/-- The exception-free field agreement is reflexive. -/
theorem eqExceptActive_refl (p : Product) : eqExceptActive p p :=
  ⟨rfl, rfl, rfl, rfl, rfl, rfl, rfl, rfl, rfl⟩

/-- The exception-free field agreement is transitive. -/
theorem eqExceptActive_trans {p q r : Product} (h1 : eqExceptActive p q)
    (h2 : eqExceptActive q r) : eqExceptActive p r := by
  obtain ⟨a1, a2, a3, a4, a5, a6, a7, a8, a9⟩ := h1
  obtain ⟨b1, b2, b3, b4, b5, b6, b7, b8, b9⟩ := h2
  exact ⟨a1.trans b1, a2.trans b2, a3.trans b3, a4.trans b4, a5.trans b5,
    a6.trans b6, a7.trans b7, a8.trans b8, a9.trans b9⟩

/-- Every product list agrees with itself outside isActive. -/
theorem forall2_eqExceptActive_refl (l : List Product) :
    List.Forall₂ eqExceptActive l l := by
  induction l with
  | nil => exact List.Forall₂.nil
  | cons x xs ih => exact List.Forall₂.cons (eqExceptActive_refl x) ih

/-- Pointwise agreement outside isActive composes. -/
theorem forall2_eqExceptActive_trans {l1 l2 l3 : List Product}
    (h1 : List.Forall₂ eqExceptActive l1 l2)
    (h2 : List.Forall₂ eqExceptActive l2 l3) :
    List.Forall₂ eqExceptActive l1 l3 := by
  induction h1 generalizing l3 with
  | nil => cases h2; exact List.Forall₂.nil
  | cons hx hxs ih =>
      cases h2 with
      | cons hy hys => exact List.Forall₂.cons (eqExceptActive_trans hx hy) (ih hys)

/-- Writing back the found product with only isActive changed leaves every
entry of the store pointwise unchanged outside isActive. -/
theorem updateFirst_setActive_forall2 (ps : List Product) (pid : Nat)
    (p : Product) (b : Bool) (hfind : findProduct ps pid = some p) :
    List.Forall₂ eqExceptActive ps (updateFirstProduct ps pid { p with isActive := b }) := by
  induction ps with
  | nil => cases hfind
  | cons x xs ih =>
      by_cases hx : (x.id == pid) = true
      · simp only [findProduct, if_pos hx] at hfind
        cases hfind
        simp only [updateFirstProduct, if_pos hx]
        exact List.Forall₂.cons ⟨rfl, rfl, rfl, rfl, rfl, rfl, rfl, rfl, rfl⟩
          (forall2_eqExceptActive_refl xs)
      · simp only [findProduct, if_neg hx] at hfind
        simp only [updateFirstProduct, if_neg hx]
        exact List.Forall₂.cons (eqExceptActive_refl x) (ih hfind)

/-- Claim C8: softDelete sets isActive to false and restore sets it back to
true; both leave every other product field and the whole transaction log
untouched, so soft-deleting then restoring preserves all fields except
isActive. -/
theorem softDelete_restore_frame (db : DB) (pid : Nat) (db1 db2 : DB)
    (h1 : softDelete db pid = .ok db1) (h2 : restore db1 pid = .ok db2) :
    db1.logs = db.logs ∧ db2.logs = db.logs ∧
    List.Forall₂ eqExceptActive db.products db1.products ∧
    List.Forall₂ eqExceptActive db.products db2.products ∧
    (∃ p1, findProduct db1.products pid = some p1 ∧ p1.isActive = false) ∧
    (∃ p2, findProduct db2.products pid = some p2 ∧ p2.isActive = true) := by
  cases hfp : findProduct db.products pid with
  | none =>
      simp only [softDelete, hfp] at h1
      exact Except.noConfusion h1
  | some p =>
    simp only [softDelete, hfp, Except.ok.injEq] at h1
    subst h1
    have hf1 : findProduct
        (updateFirstProduct db.products pid { p with isActive := false }) pid
        = some { p with isActive := false } :=
      findProduct_updateFirstProduct _ hfp (by simpa using findProduct_id hfp)
    simp only [restore, hf1, Except.ok.injEq] at h2
    subst h2
    have hf2 : findProduct (updateFirstProduct
        (updateFirstProduct db.products pid { p with isActive := false }) pid
        { { p with isActive := false } with isActive := true }) pid
        = some { { p with isActive := false } with isActive := true } :=
      findProduct_updateFirstProduct _ hf1 (by simpa using findProduct_id hfp)
    exact ⟨rfl, rfl, updateFirst_setActive_forall2 _ _ _ _ hfp,
      forall2_eqExceptActive_trans (updateFirst_setActive_forall2 _ _ _ _ hfp)
        (updateFirst_setActive_forall2 _ _ { p with isActive := false } true hf1),
      ⟨_, hf1, rfl⟩, ⟨_, hf2, rfl⟩⟩

/-- Witness for C8: soft-delete then restore on the example store. -/
theorem softDelete_restore_frame_witness :
    dbNecklaceArchived.logs = dbNecklace.logs ∧
    dbNecklaceRestored.logs = dbNecklace.logs ∧
    List.Forall₂ eqExceptActive dbNecklace.products dbNecklaceArchived.products ∧
    List.Forall₂ eqExceptActive dbNecklace.products dbNecklaceRestored.products ∧
    (∃ p1, findProduct dbNecklaceArchived.products 1 = some p1 ∧ p1.isActive = false) ∧
    (∃ p2, findProduct dbNecklaceRestored.products 1 = some p2 ∧ p2.isActive = true) :=
  softDelete_restore_frame dbNecklace 1 dbNecklaceArchived dbNecklaceRestored rfl rfl

/-! ### Claim C10 -/

/-- Writing back the very row that was found leaves the log list unchanged. -/
theorem updateFirstTxn_self {logs : List TxnLog} {pid day : Nat} {t : TxnLog}
    (hfind : findTodayTxn logs pid day = some t) :
    updateFirstTxn logs pid day t = logs := by
  induction logs with
  | nil => rfl
  | cons x xs ih =>
      by_cases hx : (x.productId == pid && x.date == day) = true
      · simp only [findTodayTxn, if_pos hx] at hfind
        cases hfind
        simp only [updateFirstTxn, if_pos hx]
      · simp only [findTodayTxn, if_neg hx] at hfind
        simp only [updateFirstTxn, if_neg hx, ih hfind]

/-- Writing back the very product that was found leaves the store unchanged. -/
theorem updateFirstProduct_self {ps : List Product} {pid : Nat} {p : Product}
    (hfind : findProduct ps pid = some p) :
    updateFirstProduct ps pid p = ps := by
  induction ps with
  | nil => rfl
  | cons x xs ih =>
      by_cases hx : (x.id == pid) = true
      · simp only [findProduct, if_pos hx] at hfind
        cases hfind
        simp only [updateFirstProduct, if_pos hx]
      · simp only [findProduct, if_neg hx] at hfind
        simp only [updateFirstProduct, if_neg hx, ih hfind]

/-- Counterexample to C10: a zero movement on a new day resets the snapshot's
openingQty (10 becomes 15) and addedQty (5 becomes 0), so it is not an
identity on all balance fields. -/
theorem applyMovement_zero_not_identity_cex :
    (applyMovement dbNecklace1 1 0 0 1).toOption = some dbNecklaceZero ∧
    (findProduct dbNecklaceZero.products 1).map Product.openingQty ≠
      (findProduct dbNecklace1.products 1).map Product.openingQty ∧
    (findProduct dbNecklaceZero.products 1).map Product.addedQty ≠
      (findProduct dbNecklace1.products 1).map Product.addedQty := by decide

/-- Amended C10: a zero movement preserves the snapshot's quantity and
closingQty whenever the snapshot is consistent with the ledger (as every state
produced by create and applyMovement is); on the same-day merge path it is a
full identity on the entire store, while on the new-day path it writes a fresh
row whose opening and closing both equal the previous closing, resetting the
snapshot's openingQty/addedQty/soldQty to that row's values. -/
theorem applyMovement_zero_identity (db : DB) (pid : Nat) (day : Nat)
    (p : Product) (db' : DB)
    (hp : findProduct db.products pid = some p)
    (h : applyMovement db pid 0 0 day = .ok db')
    (hcons : match findTodayTxn db.logs pid day with
      | some t => p.openingQty = t.openingQty ∧ p.addedQty = t.addedQty ∧
          p.soldQty = t.soldQty ∧ p.closingQty = t.closingQty ∧
          p.quantity = t.closingQty ∧
          t.closingQty = t.openingQty + t.addedQty - t.soldQty
      | none => p.quantity = p.closingQty ∧
          ∀ l, lastTxn db.logs pid = some l → l.closingQty = p.closingQty) :
    ∃ p', findProduct db'.products pid = some p' ∧
      p'.quantity = p.quantity ∧ p'.closingQty = p.closingQty ∧
      ((findTodayTxn db.logs pid day).isSome → db' = db) := by
  cases hft : findTodayTxn db.logs pid day with
  | none =>
      have hcons' : p.quantity = p.closingQty ∧
          ∀ l, lastTxn db.logs pid = some l → l.closingQty = p.closingQty := by
        rw [hft] at hcons
        exact hcons
      obtain ⟨hqc, hlast⟩ := hcons'
      simp only [applyMovement, hp, hft, Except.ok.injEq] at h
      subst h
      refine ⟨_, findProduct_updateFirstProduct _ hp (by simpa using findProduct_id hp),
        ?_, ?_, by simp⟩
      · cases hl : lastTxn db.logs pid with
        | none => simp
        | some l => have hlc := hlast l hl; simp [hl]; omega
      · cases hl : lastTxn db.logs pid with
        | none => simp; omega
        | some l => have hlc := hlast l hl; simp [hl]; omega
  | some t =>
      have hcons' : p.openingQty = t.openingQty ∧ p.addedQty = t.addedQty ∧
          p.soldQty = t.soldQty ∧ p.closingQty = t.closingQty ∧
          p.quantity = t.closingQty ∧
          t.closingQty = t.openingQty + t.addedQty - t.soldQty := by
        rw [hft] at hcons
        exact hcons
      obtain ⟨e1, e2, e3, e4, e5, e6⟩ := hcons'
      simp only [applyMovement, hp, hft, Except.ok.injEq] at h
      subst h
      have ht2 : ({ t with
          addedQty := t.addedQty + 0
          soldQty := t.soldQty + 0
          closingQty := t.openingQty + (t.addedQty + 0) - (t.soldQty + 0) } : TxnLog) = t := by
        obtain ⟨tid, tname, tsku, tdate, topen, tadd, tsold, tclose, trem⟩ := t
        have e6' : tclose = topen + tadd - tsold := e6
        simp only [TxnLog.mk.injEq, and_true, true_and]
        omega
      have hp2 : ({ p with
          openingQty := t.openingQty
          addedQty := t.addedQty + 0
          soldQty := t.soldQty + 0
          closingQty := t.openingQty + (t.addedQty + 0) - (t.soldQty + 0)
          quantity := t.openingQty + (t.addedQty + 0) - (t.soldQty + 0) } : Product) = p := by
        obtain ⟨pid2, psku, pname, pquant, plow, popen, padd, psold, pclose, pact⟩ := p
        have e1' : popen = t.openingQty := e1
        have e2' : padd = t.addedQty := e2
        have e3' : psold = t.soldQty := e3
        have e4' : pclose = t.closingQty := e4
        have e5' : pquant = t.closingQty := e5
        simp only [Product.mk.injEq, and_true, true_and]
        omega
      have hdb : (⟨updateFirstProduct db.products pid
          { p with
            openingQty := t.openingQty
            addedQty := t.addedQty + 0
            soldQty := t.soldQty + 0
            closingQty := t.openingQty + (t.addedQty + 0) - (t.soldQty + 0)
            quantity := t.openingQty + (t.addedQty + 0) - (t.soldQty + 0) },
          updateFirstTxn db.logs pid day
          { t with
            addedQty := t.addedQty + 0
            soldQty := t.soldQty + 0
            closingQty := t.openingQty + (t.addedQty + 0) - (t.soldQty + 0) }⟩ : DB) = db := by
        rw [hp2, ht2, updateFirstTxn_self hft, updateFirstProduct_self hp]
      rw [hdb]
      exact ⟨p, hp, rfl, rfl, fun _ => rfl⟩

/-- Witness for the amended C10: a zero movement on the creation day of the
example product is a full identity. -/
theorem applyMovement_zero_identity_witness :
    ∃ p', findProduct dbNecklaceZeroSame.products 1 = some p' ∧
      p'.quantity = 10 ∧ p'.closingQty = 10 ∧
      ((findTodayTxn dbNecklace.logs 1 0).isSome → dbNecklaceZeroSame = dbNecklace) := by
  have hcons : (match findTodayTxn dbNecklace.logs 1 0 with
      | some t =>
          (10 : Int) = t.openingQty ∧ (0 : Int) = t.addedQty ∧
          (0 : Int) = t.soldQty ∧ (10 : Int) = t.closingQty ∧
          (10 : Int) = t.closingQty ∧
          t.closingQty = t.openingQty + t.addedQty - t.soldQty
      | none => (10 : Int) = 10 ∧
          ∀ l, lastTxn dbNecklace.logs 1 = some l → l.closingQty = 10) := by
    have hr : findTodayTxn dbNecklace.logs 1 0 =
        some { productId := 1, productName := "NECKLACE", sku := "NE01", date := 0,
               openingQty := 10, addedQty := 0, soldQty := 0, closingQty := 10,
               remarks := "Initial stock entry" } := rfl
    rw [hr]
    exact ⟨rfl, rfl, rfl, rfl, rfl, rfl⟩
  have h := applyMovement_zero_identity dbNecklace 1 0
    { id := 1, sku := "NE01", name := "NECKLACE", quantity := 10, lowQuantity := 0,
      openingQty := 10, addedQty := 0, soldQty := 0, closingQty := 10, isActive := true }
    dbNecklaceZeroSame rfl rfl hcons
  simpa using h

/-! ### Claim C5 -/

/-- Counterexample to C5: with "AB99" stored, generateSKU for a name with
initials "AB" returns "AB100"; after that product is saved, a second
sequential call returns "AB100" again, because "AB99" is still the
lexicographic (not numeric) maximum of the SKU sort. -/
theorem generateSKU_collision_cex :
    generateSKU dbAB99.products "ABC" = "AB100" ∧
    generateSKU dbAB99next.products "ABC" = generateSKU dbAB99.products "ABC" := by
  decide

set_option maxRecDepth 10000

/-- Parsing recovers the suffix of a two-digit padded number. -/
theorem parseIntOr0_pad2 : ∀ n < 100, parseIntOr0 (pad2 (Nat.repr n)) = n := by decide

/-- On padded numbers below 100 the byte-wise string order agrees with the
numeric order. -/
theorem lexLt_pad2 : ∀ m < 100, ∀ n < 100,
    lexLt (pad2 (Nat.repr m)).data (pad2 (Nat.repr n)).data = decide (m < n) := by
  decide

/-- Consecutive padded suffixes below 100 render differently. -/
theorem pad2_succ_ne : ∀ n < 100, pad2 (Nat.repr n) ≠ pad2 (Nat.repr (n + 1)) := by
  decide

/-- Appending concatenates the character lists. -/
theorem strData_append (s t : String) : (s ++ t).data = s.data ++ t.data := by
  cases s
  cases t
  rfl

/-- A shared prefix does not affect the lexicographic comparison. -/
theorem lexLt_append_same :
    ∀ (pre u v : List Char), lexLt (pre ++ u) (pre ++ v) = lexLt u v := by
  intro pre
  induction pre with
  | nil => intro u v; rfl
  | cons c cs ih =>
      intro u v
      simp only [List.cons_append, lexLt]
      rw [if_neg (lt_irrefl c), if_neg (lt_irrefl c)]
      exact ih u v

/-- Comparison of shaped SKUs with equal initials is numeric comparison of the
suffixes. -/
theorem skuLt_skuOf (I : String) (m n : Nat) (hm : m < 100) (hn : n < 100) :
    skuLt (skuOf I m) (skuOf I n) = decide (m < n) := by
  unfold skuLt skuOf
  rw [strData_append, strData_append, lexLt_append_same]
  exact lexLt_pad2 m hm n hn

/-- A shaped SKU matches the case-insensitive initials query. -/
theorem matchesSkuCI_skuOf (I : String) (n : Nat) :
    matchesSkuCI I (skuOf I n) = true := by
  unfold matchesSkuCI skuOf
  rw [strData_append, List.take_left]
  exact beq_self_eq_true _

/-- A shaped SKU with two-character initials is nonempty. -/
theorem skuOf_data_ne_empty (I : String) (hI : I.data.length = 2) (n : Nat) :
    (skuOf I n).data.isEmpty = false := by
  unfold skuOf
  rw [strData_append]
  cases hd : I.data with
  | nil => rw [hd] at hI; cases hI
  | cons c cs => simp

/-- The generator's parse reads the numeric suffix back off a shaped SKU. -/
theorem suffNum_skuOf (I : String) (hI : I.data.length = 2) (p : Product) (n : Nat)
    (hn : n < 100) (hsku : p.sku = skuOf I n) : suffNum p = n := by
  unfold suffNum jsDrop2
  rw [hsku]
  unfold skuOf
  rw [strData_append, ← hI, List.drop_left]
  exact parseIntOr0_pad2 n hn

/-- Shaped SKUs with equal initials and different padded suffixes differ. -/
theorem skuOf_ne_of_pad_ne (I : String) (m n : Nat)
    (h : pad2 (Nat.repr m) ≠ pad2 (Nat.repr n)) : skuOf I m ≠ skuOf I n := by
  intro he
  apply h
  apply String.ext
  have hd : (skuOf I m).data = (skuOf I n).data := by rw [he]
  unfold skuOf at hd
  rw [strData_append, strData_append] at hd
  exact List.append_cancel_left hd

/-- Every candidate surviving the initials filter of a bounded store is
shaped. -/
theorem candidates_shaped (I : String) (hI : I.data.length = 2) (b : Nat)
    (hb : b < 100) (ps : List Product) (h : skusBelow I b ps) :
    ∀ p ∈ ps.filter (fun p => matchesSkuCI I p.sku), skuShaped I b p := by
  intro p hp
  rw [List.mem_filter] at hp
  obtain ⟨hmem, hmatch⟩ := hp
  obtain ⟨n, hn, hsku⟩ := h p hmem hmatch
  have hs := suffNum_skuOf I hI p n (lt_of_le_of_lt hn hb) hsku
  exact ⟨by rw [hs]; exact hsku, by rw [hs]; exact hn⟩

/-- Invariant of the descending-sort fold: starting from a shaped accumulator
over shaped candidates, the fold returns a candidate (or the accumulator)
whose suffix dominates all of them. -/
theorem maxBySku_go (I : String) (b : Nat) (hb : b < 100) :
    ∀ (l : List Product) (q : Product),
    (∀ p ∈ l, skuShaped I b p) → skuShaped I b q →
    ∃ r, List.foldl
        (fun acc p =>
          match acc with
          | none => some p
          | some q2 => if skuLt q2.sku p.sku then some p else some q2) (some q) l = some r ∧
      (r ∈ l ∨ r = q) ∧ skuShaped I b r ∧ suffNum q ≤ suffNum r ∧
      ∀ p ∈ l, suffNum p ≤ suffNum r := by
  intro l
  induction l with
  | nil =>
      intro q _ hq
      exact ⟨q, rfl, Or.inr rfl, hq, le_refl _, by intro p hp; cases hp⟩
  | cons x xs ih =>
      intro q hl hq
      have hx := hl x (List.mem_cons_self x xs)
      have hxs : ∀ p ∈ xs, skuShaped I b p := fun p hp => hl p (List.mem_cons_of_mem x hp)
      have hcmp : skuLt q.sku x.sku = decide (suffNum q < suffNum x) := by
        rw [hq.1, hx.1]
        exact skuLt_skuOf I _ _ (lt_of_le_of_lt hq.2 hb) (lt_of_le_of_lt hx.2 hb)
      simp only [List.foldl_cons]
      by_cases hlt : suffNum q < suffNum x
      · rw [hcmp, if_pos (by simpa using hlt)]
        obtain ⟨r, h1, h2, h3, h4, h5⟩ := ih x hxs hx
        refine ⟨r, h1, ?_, h3, le_trans (le_of_lt hlt) h4, ?_⟩
        · cases h2 with
          | inl h => exact Or.inl (List.mem_cons_of_mem x h)
          | inr h => exact Or.inl (by rw [h]; exact List.mem_cons_self x xs)
        · intro p hp
          cases List.mem_cons.mp hp with
          | inl h => rw [h]; exact h4
          | inr h => exact h5 p h
      · rw [hcmp, if_neg (by simpa using hlt)]
        obtain ⟨r, h1, h2, h3, h4, h5⟩ := ih q hxs hq
        refine ⟨r, h1, ?_, h3, h4, ?_⟩
        · cases h2 with
          | inl h => exact Or.inl (List.mem_cons_of_mem x h)
          | inr h => exact Or.inr h
        · intro p hp
          cases List.mem_cons.mp hp with
          | inl h => rw [h]; exact le_trans (Nat.le_of_not_lt hlt) h4
          | inr h => exact h5 p h

/-- The descending SKU sort of a shaped candidate list returns nothing on the
empty list and otherwise a member whose suffix dominates every candidate. -/
theorem maxBySku_spec (I : String) (b : Nat) (hb : b < 100) (l : List Product)
    (hl : ∀ p ∈ l, skuShaped I b p) :
    (l = [] ∧ maxBySku l = none) ∨
    ∃ r, maxBySku l = some r ∧ r ∈ l ∧ skuShaped I b r ∧
      ∀ p ∈ l, suffNum p ≤ suffNum r := by
  cases l with
  | nil => exact Or.inl ⟨rfl, rfl⟩
  | cons x xs =>
      obtain ⟨r, h1, h2, h3, h4, h5⟩ := maxBySku_go I b hb xs x
        (fun p hp => hl p (List.mem_cons_of_mem x hp)) (hl x (List.mem_cons_self x xs))
      refine Or.inr ⟨r, ?_, ?_, h3, ?_⟩
      · unfold maxBySku
        simp only [List.foldl_cons]
        exact h1
      · cases h2 with
        | inl h => exact List.mem_cons_of_mem x h
        | inr h => rw [h]; exact List.mem_cons_self x xs
      · intro p hp
        cases List.mem_cons.mp hp with
        | inl h => rw [h]; exact h4
        | inr h => exact h5 p h

/-- The generator's output once the descending sort has been resolved. -/
theorem generateSKU_eq_of_max (ps : List Product) (name : String) (r : Product)
    (hI : (jsToUpper (jsSlice2 name)).data.length = 2) (n : Nat) (hn : n < 100)
    (hmax : maxBySku (ps.filter
      (fun p => matchesSkuCI (jsToUpper (jsSlice2 name)) p.sku)) = some r)
    (hsku : r.sku = skuOf (jsToUpper (jsSlice2 name)) n) :
    generateSKU ps name = skuOf (jsToUpper (jsSlice2 name)) (n + 1) := by
  simp only [generateSKU]
  rw [hmax]
  have hne := skuOf_data_ne_empty _ hI n
  show jsToUpper (jsSlice2 name) ++
      pad2 (Nat.repr (if r.sku.data.isEmpty = true then 1
        else parseIntOr0 (jsDrop2 r.sku) + 1)) =
    skuOf (jsToUpper (jsSlice2 name)) (n + 1)
  rw [hsku, hne]
  simp only [Bool.false_eq_true, if_false]
  have hparse : parseIntOr0 (jsDrop2 (skuOf (jsToUpper (jsSlice2 name)) n)) = n := by
    unfold jsDrop2 skuOf
    rw [strData_append, ← hI, List.drop_left]
    exact parseIntOr0_pad2 n hn
  rw [hparse]
  rfl

/-- Amended C5: two sequential non-concurrent generateSKU calls for the same
two-letter prefix never return the same SKU, provided every stored SKU
matching the prefix has the generator's own two-digit zero-padded shape with
suffix at most 98. Once a suffix reaches 99, the next two sequential calls
collide (see the counterexample): the lexicographic sort picks "AB99" over
"AB100", so both calls return "AB100". -/
theorem generateSKU_sequential_distinct (ps : List Product) (name : String)
    (p1 : Product) (hlen : 2 ≤ name.data.length)
    (hbelow : skusBelow (jsToUpper (jsSlice2 name)) 98 ps)
    (hsave : p1.sku = generateSKU ps name) :
    generateSKU (ps ++ [p1]) name ≠ generateSKU ps name := by
  have hI : (jsToUpper (jsSlice2 name)).data.length = 2 := by
    simp only [jsToUpper, jsSlice2, List.length_map, List.length_take]
    omega
  have hshaped := candidates_shaped _ hI 98 (by omega) ps hbelow
  -- Resolve the first call.
  obtain hc1 | ⟨r, hmax, hmem, hsh, hall⟩ :=
    maxBySku_spec (jsToUpper (jsSlice2 name)) 98 (by omega) _ hshaped
  case inl =>
    -- No candidate: the first call yields suffix 1.
    obtain ⟨hnil, hnone⟩ := hc1
    have hs1 : generateSKU ps name = skuOf (jsToUpper (jsSlice2 name)) 1 := by
      simp only [generateSKU]
      rw [hnone]
      rfl
    have hmatch1 : matchesSkuCI (jsToUpper (jsSlice2 name)) p1.sku = true := by
      rw [hsave, hs1]
      exact matchesSkuCI_skuOf _ 1
    have hc2 : (ps ++ [p1]).filter
        (fun p => matchesSkuCI (jsToUpper (jsSlice2 name)) p.sku) = [p1] := by
      rw [List.filter_append, hnil]
      simp [hmatch1]
    have hsuff1 : suffNum p1 = 1 :=
      suffNum_skuOf _ hI p1 1 (by omega) (by rw [hsave, hs1])
    have hs2 : generateSKU (ps ++ [p1]) name = skuOf (jsToUpper (jsSlice2 name)) 2 := by
      have := generateSKU_eq_of_max (ps ++ [p1]) name p1 hI 1 (by omega)
        (by rw [hc2]; rfl) (by rw [hsave, hs1])
      exact this
    rw [hs2, hs1]
    exact skuOf_ne_of_pad_ne _ 2 1 (Ne.symm (pad2_succ_ne 1 (by omega)))
  case inr =>
    -- A candidate exists: the first call yields its suffix plus one.
    set I := jsToUpper (jsSlice2 name) with hIdef
    have hM : suffNum r ≤ 98 := hsh.2
    have hs1 : generateSKU ps name = skuOf I (suffNum r + 1) :=
      generateSKU_eq_of_max ps name r hI (suffNum r) (by omega) hmax hsh.1
    have hmatch1 : matchesSkuCI I p1.sku = true := by
      rw [hsave, hs1]
      exact matchesSkuCI_skuOf _ _
    have hc2 : (ps ++ [p1]).filter (fun p => matchesSkuCI I p.sku)
        = ps.filter (fun p => matchesSkuCI I p.sku) ++ [p1] := by
      rw [List.filter_append]
      simp [hmatch1]
    have hsuffp1 : suffNum p1 = suffNum r + 1 :=
      suffNum_skuOf _ hI p1 _ (by omega) (by rw [hsave, hs1])
    have hshaped2 : ∀ p ∈ (ps ++ [p1]).filter (fun p => matchesSkuCI I p.sku),
        skuShaped I 99 p := by
      intro p hp
      rw [hc2] at hp
      cases List.mem_append.mp hp with
      | inl h =>
          obtain ⟨ha, hb2⟩ := hshaped p h
          exact ⟨ha, by omega⟩
      | inr h =>
          have hp1 : p = p1 := by simpa using h
          subst hp1
          exact ⟨by rw [hsuffp1, hsave, hs1], by omega⟩
    obtain hc | ⟨r2, hmax2, hmem2, hsh2, hall2⟩ :=
      maxBySku_spec I 99 (by omega) _ hshaped2
    case inl =>
      obtain ⟨hnil, _⟩ := hc
      rw [hc2] at hnil
      cases List.append_ne_nil_of_right_ne_nil _ (by simp : ([p1] : List Product) ≠ []) hnil
    case inr =>
      have hp1mem : p1 ∈ (ps ++ [p1]).filter (fun p => matchesSkuCI I p.sku) := by
        rw [hc2]
        exact List.mem_append_right _ (by simp)
      have hlow : suffNum r + 1 ≤ suffNum r2 := by
        have := hall2 p1 hp1mem
        omega
      have hup : suffNum r2 = suffNum r + 1 := by
        rw [hc2] at hmem2
        cases List.mem_append.mp hmem2 with
        | inl h =>
            have := hall r2 h
            omega
        | inr h =>
            have hr2 : r2 = p1 := by simpa using h
            rw [hr2, hsuffp1]
      have hs2 : generateSKU (ps ++ [p1]) name = skuOf I (suffNum r + 2) := by
        have := generateSKU_eq_of_max (ps ++ [p1]) name r2 hI (suffNum r + 1) (by omega)
          hmax2 (by have h1 := hsh2.1; rw [hup] at h1; exact h1)
        simpa using this
      rw [hs2, hs1]
      exact skuOf_ne_of_pad_ne _ _ _ (Ne.symm (pad2_succ_ne (suffNum r + 1) (by omega)))

/-- Witness for the amended C5: with only "AB07" stored, the first call yields
"AB08" and the second, after saving it, yields "AB09". -/
theorem generateSKU_sequential_distinct_witness :
    generateSKU (dbAB07.products ++ [pAB08]) "ABC" ≠ generateSKU dbAB07.products "ABC" :=
  generateSKU_sequential_distinct dbAB07.products "ABC" pAB08 (by decide)
    (by
      intro p hp hm
      simp only [dbAB07, List.mem_singleton] at hp
      subst hp
      exact ⟨7, by omega, by decide⟩)
    rfl

end Inventory
